import Mathlib

set_option maxRecDepth 100000

/-!
# Verification of the glTF-KTX-texture container patcher and projection engine

Shallow embedding of the repository's core subsystems:

* `relocate`, `patchGLBE`, `patchGltfE` — the ContainerPatcher
  (`src/__init__.py`, `_post_process_glb_envmap` / `_post_process_gltf_envmap`),
  modelled on the parsed container state (glTF JSON fields that the patcher
  touches, plus the binary chunk as a byte list).  Python exceptions raised by
  `base64.b64decode` abort the whole operation before any file write; they are
  modelled by the `Except` error channel, whose payload is the undecodable
  base64 string (the only information the raised `binascii.Error` derives
  from the input).
* `face_configs`, `encodeSrcPixel` — the ProjectionEngine encode path
  (`src/ktx2_envmap_encode.py`, `equirect_to_cubemap_faces`), over `ℝ`
  (the Python code computes with IEEE doubles; the embedding idealises them
  as real numbers).
* `selectFaceUV`, `facesToEquirect` — the decode path
  (`src/ktx2_envmap_decode.py`, `cubemap_faces_to_equirectangular`).
* `sortCubemapFaces` — the FaceIdentifier (`src/ktx2_envmap_decode.py`,
  `sort_cubemap_faces`), with a small evaluator for the exact regular
  expressions the source uses.
* `decode_ktx2_fallback` — the fallback HeaderParser (`src/ktx2_decode.py`).
-/

/-! ## Base64 (model of CPython `base64.b64decode` / `b64encode`) -/

/-- Value of a base64 alphabet character, `none` for non-alphabet characters
(which CPython's non-strict `a2b_base64` silently discards). -/
def b64Val? (c : Char) : Option Nat :=
  if 'A' ≤ c ∧ c ≤ 'Z' then some (c.toNat - 65)
  else if 'a' ≤ c ∧ c ≤ 'z' then some (c.toNat - 97 + 26)
  else if '0' ≤ c ∧ c ≤ '9' then some (c.toNat - 48 + 52)
  else if c = '+' then some 62
  else if c = '/' then some 63
  else none

/-- Reassemble 6-bit groups into bytes: 4 groups give 3 bytes, a trailing
pair gives 1 byte, a trailing triple gives 2 bytes. -/
def b64Bytes : List Nat → List Nat
  | a :: b :: c :: d :: rest =>
      (a * 4 + b / 16) :: ((b % 16) * 16 + c / 4) :: ((c % 4) * 64 + d) :: b64Bytes rest
  | [a, b] => [a * 4 + b / 16]
  | [a, b, c] => [a * 4 + b / 16, (b % 16) * 16 + c / 4]
  | _ => []

/-- Model of CPython `base64.b64decode` (non-strict): characters outside the
alphabet are discarded, everything from the first `=` on terminates the data,
and `binascii.Error` (modelled as `none`) is raised when the number of data
characters is 1 more than a multiple of 4, or when padding is absent and the
count is not a multiple of 4. -/
def b64decode (s : String) : Option (List Nat) :=
  let cs := s.data
  let ds := (cs.takeWhile (· ≠ '=')).filterMap b64Val?
  if ds.length % 4 = 1 then none
  else if ¬ cs.contains '=' ∧ ds.length % 4 ≠ 0 then none
  else some (b64Bytes ds)

/-- The base64 alphabet, indexed by 6-bit value. -/
def b64Alphabet : List Char :=
  "ABCDEFGHIJKLMNOPQRSTUVWXYZabcdefghijklmnopqrstuvwxyz0123456789+/".data

/-- Model of CPython `base64.b64encode` (standard alphabet, `=` padding). -/
def b64encode (bs : List Nat) : String :=
  let ch : Nat → List Char := fun n => [b64Alphabet.getD n 'A']
  match bs with
  | a :: b :: c :: rest =>
      String.mk (ch (a / 4) ++ ch ((a % 4) * 16 + b / 16) ++
        ch ((b % 16) * 4 + c / 64) ++ ch (c % 64)) ++ b64encode rest
  | [a, b] =>
      String.mk (ch (a / 4) ++ ch ((a % 4) * 16 + b / 16) ++ ch ((b % 16) * 4) ++ ['='])
  | [a] => String.mk (ch (a / 4) ++ ch ((a % 4) * 16) ++ ['=', '='])
  | [] => ""

/-! ## Container data model

Only the JSON fields the patcher reads or writes are modelled
(`images[].uri/bufferView/mimeType`, `bufferViews[]`, `buffers[]`). -/

/-- A glTF `images[]` entry, restricted to the fields the patcher touches. -/
structure Image where
  uri : Option String
  bufferView : Option Nat
  mimeType : Option String
deriving DecidableEq, Repr

/-- A glTF `bufferViews[]` entry as created by the patcher. -/
structure BufferView where
  buffer : Nat
  byteOffset : Nat
  byteLength : Nat
deriving DecidableEq, Repr

/-- A glTF `buffers[]` entry (`byteLength` and `uri` keys may be absent). -/
structure Buffer where
  byteLength : Option Nat
  uri : Option String
deriving DecidableEq, Repr

/-- The glTF JSON root, restricted to the fields the patcher touches. -/
structure Gltf where
  images : List Image
  bufferViews : List BufferView
  buffers : List Buffer
deriving DecidableEq, Repr

/-- A monolithic (GLB) container after chunk parsing: the JSON root plus the
binary chunk bytes. -/
structure GlbContainer where
  gltf : Gltf
  binary : List Nat
deriving DecidableEq, Repr

/-- A JSON-file container: the JSON root plus the contents of the external
`.bin` file when it exists (`none` models a missing file). -/
structure GltfContainer where
  gltf : Gltf
  binFile : Option (List Nat)
deriving DecidableEq, Repr

/-- The inline data URI prefix recognised by the patcher. -/
def ktx2Prefix : String := "data:image/ktx2;base64,"

/-- Python `str.startswith`, on code points. -/
def strStartsWith (s pre : String) : Bool :=
  pre.data.isPrefixOf s.data

/-- Python string slicing `s[n:]`, on code points. -/
def strDrop (s : String) (n : Nat) : String :=
  String.mk (s.data.drop n)

/-- `uri = image.get('uri', ''); isinstance(uri, str) and
uri.startswith('data:image/ktx2;base64,')`. -/
def imageMatches (i : Image) : Bool :=
  strStartsWith (i.uri.getD "") ktx2Prefix

/-- `b64_data = uri[len('data:image/ktx2;base64,'):]`. -/
def payloadOf (i : Image) : String :=
  strDrop (i.uri.getD "") 23

/-- Zero-pad a byte list to a multiple of 4
(`padding = (4 - len(binary_data) % 4) % 4`). -/
def padTo4 (b : List Nat) : List Nat :=
  b ++ List.replicate ((4 - b.length % 4) % 4) 0

/-- Result state of the per-image relocation loop. -/
structure RelocOut where
  images : List Image
  views : List BufferView
  binary : List Nat
  modified : Bool
deriving DecidableEq, Repr

/-- The per-image loop shared by `_post_process_glb_envmap` (lines 874-905)
and the two branches of `_post_process_gltf_envmap` (lines 1023-1044 and
1081-1102): for each image whose `uri` is an inline `data:image/ktx2;base64,`
URI, decode the payload (a `binascii.Error` aborts the whole operation: the
error value is the undecodable payload), zero-pad the binary to 4 bytes,
append the decoded bytes, append a `{buffer:0, byteOffset, byteLength}`
buffer view, and rewrite the image entry to
`{bufferView: index, mimeType: "image/ktx2"}` with its `uri` deleted. -/
def relocate : List Image → List BufferView → List Nat → Bool →
    Except String RelocOut
  | [], views, bin, m => .ok ⟨[], views, bin, m⟩
  | img :: rest, views, bin, m =>
    if imageMatches img then
      match b64decode (payloadOf img) with
      | none => .error (payloadOf img)
      | some bytes =>
        let bin1 := padTo4 bin
        let bv : BufferView := ⟨0, bin1.length, bytes.length⟩
        let img' : Image := ⟨none, some views.length, some "image/ktx2"⟩
        match relocate rest (views ++ [bv]) (bin1 ++ bytes) true with
        | .error e => .error e
        | .ok out => .ok ⟨img' :: out.images, out.views, out.binary, out.modified⟩
    else
      match relocate rest views bin m with
      | .error e => .error e
      | .ok out => .ok ⟨img :: out.images, out.views, out.binary, out.modified⟩

/-- `_post_process_glb_envmap` (src/__init__.py lines 870-944) on the parsed
container: run the relocation loop starting from the existing `bufferViews`
and binary chunk; if nothing matched, return without rewriting the file;
otherwise set `buffers[0].byteLength` to the (unpadded) binary length
(creating `buffers` when absent), zero-pad the binary chunk to 4 bytes and
rebuild the file. -/
def patchGLBE (c : GlbContainer) : Except String GlbContainer :=
  match relocate c.gltf.images c.gltf.bufferViews c.binary false with
  | .error e => .error e
  | .ok out =>
    if out.modified = false then .ok c
    else
      let buffers :=
        match c.gltf.buffers with
        | [] => [⟨some out.binary.length, none⟩]
        | b :: bs => { b with byteLength := some out.binary.length } :: bs
      .ok ⟨⟨out.images, out.views, buffers⟩, padTo4 out.binary⟩

/-- The stored file state after running `_post_process_glb_envmap`: a raised
exception leaves the file unchanged (the rebuilt GLB is only written at the
very end). -/
def patchGLBRun (c : GlbContainer) : GlbContainer :=
  match patchGLBE c with
  | .ok c' => c'
  | .error _ => c

/-- First matched image whose base64 payload fails to decode, as the
undecodable payload (the information carried by the first raised
`binascii.Error`). -/
def firstFailingPayload : List Image → Option String
  | [] => none
  | i :: rest =>
    if imageMatches i then
      match b64decode (payloadOf i) with
      | none => some (payloadOf i)
      | some _ => firstFailingPayload rest
    else firstFailingPayload rest

/-- Index of the first matched image whose base64 payload fails to decode. -/
def firstFailingIndex : List Image → Option Nat
  | [] => none
  | i :: rest =>
    if imageMatches i ∧ b64decode (payloadOf i) = none then some 0
    else (firstFailingIndex rest).map (· + 1)

/-- `images.any(...)`: at least one image has an inline KTX2 data URI. -/
def hasInlineKtx2 (g : Gltf) : Bool := g.images.any imageMatches

/-- `comma_idx = buffer_uri.find(','); buffer_uri[comma_idx + 1:]`:
the part of a data URI after the first comma, `none` when there is none. -/
def dataUriTail (u : String) : Option String :=
  match u.data.dropWhile (· ≠ ',') with
  | [] => none
  | _ :: t => some (String.mk t)

/-- `buffer_uri = buffers[0].get('uri', '') if buffers else ''`. -/
def bufferUri0 (g : Gltf) : String :=
  match g.buffers.head? with
  | some b => b.uri.getD ""
  | none => ""

/-- Initial binary data of the embedded branch: the decode of the existing
`buffers[0]` data URI after its first comma (a `binascii.Error` aborts the
whole post-process), or empty when there is no data URI to decode. -/
def embeddedInitBin (buffer_uri : String) : Except String (List Nat) :=
  if strStartsWith buffer_uri "data:" then
    match dataUriTail buffer_uri with
    | some b64 =>
      match b64decode b64 with
      | some bs => .ok bs
      | none => .error b64
    | none => .ok []
  else .ok []

/-- GLTF_EMBEDDED branch of `_post_process_gltf_envmap` (lines 992-1055):
decode the existing buffer data URI, run the relocation loop, then store the
grown buffer back as a base64 data URI in `buffers[0].uri` and set
`buffers[0].byteLength` (creating a bare `{}` buffer when none exists).
No final padding is applied. -/
def patchEmbedded (c : GltfContainer) (buffer_uri : String) :
    Except String GltfContainer :=
  match embeddedInitBin buffer_uri with
  | .error e => .error e
  | .ok initBin =>
    let buffers1 := if c.gltf.buffers.isEmpty then [⟨none, none⟩] else c.gltf.buffers
    match relocate c.gltf.images c.gltf.bufferViews initBin false with
    | .error e => .error e
    | .ok out =>
      let newUri := "data:application/octet-stream;base64," ++ b64encode out.binary
      let buffers2 := match buffers1 with
        | [] => []
        | b :: bs =>
            { b with uri := some newUri, byteLength := some out.binary.length } :: bs
      .ok ⟨⟨out.images, out.views, buffers2⟩, c.binFile⟩

/-- GLTF_SEPARATE branch of `_post_process_gltf_envmap` (lines 1057-1118):
a missing `.bin` file returns with nothing written; otherwise the relocation
loop runs on the file contents, `buffers[0].byteLength` is set and the grown
buffer is written back to the file.  No final padding is applied. -/
def patchSeparate (c : GltfContainer) : Except String GltfContainer :=
  match c.binFile with
  | none => .ok c
  | some bin0 =>
    match relocate c.gltf.images c.gltf.bufferViews bin0 false with
    | .error e => .error e
    | .ok out =>
      let buffers2 := match c.gltf.buffers with
        | [] => []
        | b :: bs => { b with byteLength := some out.binary.length } :: bs
      .ok ⟨⟨out.images, out.views, buffers2⟩, some out.binary⟩

/-- `_post_process_gltf_envmap` (src/__init__.py lines 966-1118) on the
parsed container.  The collection loop decodes every matched payload first
(a failure aborts before anything is written); when nothing matched the
function returns with nothing written.  The buffer layout is then inspected:
an absent or `data:` `buffers[0].uri` selects the embedded branch, otherwise
the separate-file branch runs. -/
def patchGltfE (c : GltfContainer) : Except String GltfContainer :=
  match firstFailingPayload c.gltf.images with
  | some p => .error p
  | none =>
    if ¬ hasInlineKtx2 c.gltf then .ok c
    else
      let buffer_uri := bufferUri0 c.gltf
      if buffer_uri = "" ∨ strStartsWith buffer_uri "data:" then
        patchEmbedded c buffer_uri
      else patchSeparate c

/-- The stored file state after running `_post_process_gltf_envmap`: a raised
exception leaves both the JSON and the `.bin` file unchanged (all decoding
happens before the writes). -/
def patchGltfRun (c : GltfContainer) : GltfContainer :=
  match patchGltfE c with
  | .ok c' => c'
  | .error _ => c

/-- End of a buffer view region. -/
def viewEnd (v : BufferView) : Nat := v.byteOffset + v.byteLength

/-- All views lie within `[0, n)`. -/
def ViewsBounded (vs : List BufferView) (n : Nat) : Prop :=
  ∀ v ∈ vs, viewEnd v ≤ n

/-- No two views overlap. -/
def ViewsDisjoint (vs : List BufferView) : Prop :=
  vs.Pairwise fun a b => viewEnd a ≤ b.byteOffset ∨ viewEnd b ≤ a.byteOffset

example : b64decode "AAA=" = some [0, 0] := by decide
example : b64decode "AAAA" = some [0, 0, 0] := by decide
example : b64decode "AAAAA" = none := by decide
example : b64encode [0, 0] = "AAA=" := by decide

/-! ## Properties of the relocation loop -/

lemma padTo4_length (b : List Nat) :
    (padTo4 b).length = b.length + (4 - b.length % 4) % 4 := by
  simp [padTo4]

lemma padTo4_mod (b : List Nat) : (padTo4 b).length % 4 = 0 := by
  rw [padTo4_length]; omega

lemma padTo4_prefix (b : List Nat) : ∃ t, padTo4 b = b ++ t :=
  ⟨_, rfl⟩

/-- An image rewritten by the relocation loop has no `uri` left, hence no
longer matches the inline-data-URI test. -/
lemma imageMatches_patched (bv : Option Nat) (mt : Option String) :
    imageMatches ⟨none, bv, mt⟩ = false := by
  dsimp only [imageMatches]
  decide

/-- Composite behaviour of a successful relocation pass: the binary only
grows, the views list only grows by in-bounds non-overlapping views placed
after the original data, an unmodified pass leaves everything unchanged, no
image of the output still matches, and the pass is modified as soon as some
input image matches. -/
lemma relocate_ok_spec :
    ∀ (imgs : List Image) (views : List BufferView) (bin : List Nat)
      (m : Bool) (out : RelocOut), relocate imgs views bin m = .ok out →
      (∃ t, out.binary = bin ++ t) ∧
      (∃ nv, out.views = views ++ nv ∧
        (∀ v ∈ nv, bin.length ≤ v.byteOffset ∧ viewEnd v ≤ out.binary.length) ∧
        nv.Pairwise (fun a b => viewEnd a ≤ b.byteOffset)) ∧
      (out.modified = false → out = ⟨imgs, views, bin, m⟩) ∧
      (∀ i ∈ out.images, imageMatches i = false) ∧
      ((∃ i ∈ imgs, imageMatches i = true) → out.modified = true) ∧
      (m = true → out.modified = true) := by
  intro imgs
  induction imgs with
  | nil =>
    intro views bin m out h
    simp only [relocate, Except.ok.injEq] at h
    subst h
    refine ⟨⟨[], by simp⟩, ⟨[], by simp⟩, fun _ => rfl, by simp, ?_, fun hm => hm⟩
    rintro ⟨i, hi, -⟩; cases hi
  | cons img rest ih =>
    intro views bin m out h
    simp only [relocate] at h
    by_cases hm : imageMatches img
    · rw [if_pos hm] at h
      split at h
      · cases h
      · rename_i bytes hb
        split at h
        · cases h
        · rename_i out' hrec
          rw [Except.ok.injEq] at h
          subst h
          obtain ⟨⟨t, ht⟩, ⟨nv, hnv, hbd, hpw⟩, -, hnm, -, hmod⟩ :=
            ih _ _ _ _ hrec
          have hbinlen : (padTo4 bin ++ bytes).length ≤ out'.binary.length := by
            rw [ht]; simp
          have hpadge : bin.length ≤ (padTo4 bin).length := by
            rw [padTo4_length]; omega
          dsimp only
          have hblen : (padTo4 bin).length + bytes.length ≤ out'.binary.length := by
            simpa using hbinlen
          refine ⟨?_, ?_, ?_, ?_, ?_, ?_⟩
          · obtain ⟨p, hp⟩ := padTo4_prefix bin
            exact ⟨p ++ bytes ++ t, by simp [ht, hp]⟩
          · refine ⟨⟨0, (padTo4 bin).length, bytes.length⟩ :: nv, by simp [hnv], ?_, ?_⟩
            · intro v hv
              rcases List.mem_cons.mp hv with hveq | hv2
              · subst hveq
                exact ⟨hpadge, by simp only [viewEnd]; exact hblen⟩
              · obtain ⟨h1, h2⟩ := hbd v hv2
                simp only [List.length_append] at h1
                exact ⟨by omega, h2⟩
            · refine List.pairwise_cons.mpr ⟨?_, hpw⟩
              intro v hv
              have h1 := (hbd v hv).1
              simp only [List.length_append] at h1
              simp only [viewEnd]
              omega
          · intro hf
            rw [hmod rfl] at hf
            cases hf
          · intro i hi
            rcases List.mem_cons.mp hi with rfl | hi2
            · exact imageMatches_patched _ _
            · exact hnm i hi2
          · intro _
            exact hmod rfl
          · intro _
            exact hmod rfl
    · rw [if_neg hm] at h
      split at h
      · cases h
      · rename_i out' hrec
        rw [Except.ok.injEq] at h
        subst h
        obtain ⟨hbin, hviews, hunmod, hnm, hmatch, hmono⟩ := ih _ _ _ _ hrec
        dsimp only
        refine ⟨hbin, hviews, ?_, ?_, ?_, hmono⟩
        · intro hf
          simp [hunmod hf]
        · intro i hi
          rcases List.mem_cons.mp hi with rfl | hi2
          · simpa using hm
          · exact hnm i hi2
        · rintro ⟨i, hi, hmi⟩
          rcases List.mem_cons.mp hi with rfl | hi2
          · exact absurd hmi (by simp [hm])
          · exact hmatch ⟨i, hi2, hmi⟩

/-- When no image matches, the relocation loop is an identity. -/
lemma relocate_no_match :
    ∀ (imgs : List Image) (views : List BufferView) (bin : List Nat) (m : Bool),
      (∀ i ∈ imgs, imageMatches i = false) →
      relocate imgs views bin m = .ok ⟨imgs, views, bin, m⟩ := by
  intro imgs
  induction imgs with
  | nil => intro views bin m _; rfl
  | cons img rest ih =>
    intro views bin m hnm
    have hm : imageMatches img = false := hnm img (List.mem_cons_self _ _)
    simp only [relocate, hm, Bool.false_eq_true, if_false]
    rw [ih views bin m fun i hi => hnm i (List.mem_cons_of_mem _ hi)]

/-- When no image matches, no payload can fail to decode. -/
lemma firstFailing_none_of_no_match :
    ∀ imgs : List Image, (∀ i ∈ imgs, imageMatches i = false) →
      firstFailingPayload imgs = none := by
  intro imgs
  induction imgs with
  | nil => intro _; rfl
  | cons img rest ih =>
    intro hnm
    have hm : imageMatches img = false := hnm img (List.mem_cons_self _ _)
    simp only [firstFailingPayload, hm, Bool.false_eq_true, if_false]
    exact ih fun i hi => hnm i (List.mem_cons_of_mem _ hi)

/-- A failing payload aborts the relocation loop with exactly that payload
as the error value. -/
lemma relocate_error_of_fail :
    ∀ (imgs : List Image) (views : List BufferView) (bin : List Nat)
      (m : Bool) (p : String), firstFailingPayload imgs = some p →
      relocate imgs views bin m = .error p := by
  intro imgs
  induction imgs with
  | nil => intro views bin m p h; cases h
  | cons img rest ih =>
    intro views bin m p h
    simp only [firstFailingPayload] at h
    simp only [relocate]
    by_cases hm : imageMatches img
    · rw [if_pos hm] at h ⊢
      cases hb : b64decode (payloadOf img) with
      | none =>
        rw [hb] at h
        simp only [Option.some.injEq] at h
        subst h
        rfl
      | some bytes =>
        simp only [hb] at h ⊢
        rw [ih _ _ _ _ h]
    · rw [if_neg hm] at h ⊢
      rw [ih _ _ _ _ h]

/-- A container none of whose images matches is returned unchanged by the
GLB post-process. -/
lemma patchGLB_of_no_match (c : GlbContainer)
    (hnm : ∀ i ∈ c.gltf.images, imageMatches i = false) :
    patchGLBE c = .ok c := by
  simp only [patchGLBE]
  rw [relocate_no_match _ _ _ _ hnm]
  rfl

/-- A container none of whose images matches is returned unchanged by the
GLTF post-process. -/
lemma patchGltf_of_no_match (d : GltfContainer)
    (hnm : ∀ i ∈ d.gltf.images, imageMatches i = false) :
    patchGltfE d = .ok d := by
  have hni : hasInlineKtx2 d.gltf = false := by
    simp only [hasInlineKtx2, List.any_eq_false]
    intro i hi
    simp [hnm i hi]
  simp only [patchGltfE]
  rw [firstFailing_none_of_no_match _ hnm, hni]
  rfl

/-! ## Concrete containers used by the scenario claims -/

/-- The image entry of the spec's monolithic scenario:
`{"mimeType":"image/ktx2","uri":"data:image/ktx2;base64,AAA="}`. -/
def scenarioImage : Image :=
  ⟨some "data:image/ktx2;base64,AAA=", none, some "image/ktx2"⟩

/-- The image entry after relocation. -/
def patchedImage : Image := ⟨none, some 0, some "image/ktx2"⟩

/-- The spec's monolithic scenario container: one inline KTX2 image, no
buffer views, no buffers, empty binary chunk. -/
def scenarioGlb : GlbContainer := ⟨⟨[scenarioImage], [], []⟩, []⟩

/-- Expected result of patching `scenarioGlb`. -/
def scenarioGlbResult : GlbContainer :=
  ⟨⟨[patchedImage], [⟨0, 0, 2⟩], [⟨some 2, none⟩]⟩, [0, 0, 0, 0]⟩

/-- The same scenario in the JSON-with-embedded-buffer layout (no `buffers`
entry yet, so the embedded branch runs). -/
def scenarioEmb : GltfContainer := ⟨⟨[scenarioImage], [], []⟩, none⟩

/-- The same scenario in the JSON-plus-`.bin`-file layout, with an existing
empty binary file. -/
def scenarioSep : GltfContainer :=
  ⟨⟨[scenarioImage], [], [⟨some 0, some "scene.bin"⟩]⟩, some []⟩

/-- An image whose base64 payload (`AAAAA`, five data characters) raises
`binascii.Error` in `base64.b64decode`. -/
def badImage : Image :=
  ⟨some "data:image/ktx2;base64,AAAAA", none, some "image/ktx2"⟩

/-- An image with a well-formed base64 payload. -/
def goodImage : Image :=
  ⟨some "data:image/ktx2;base64,AAAA", none, some "image/ktx2"⟩

/-- A GLB container whose only image (index 0) has an undecodable payload. -/
def badGlbA : GlbContainer := ⟨⟨[badImage], [], []⟩, []⟩

/-- A GLB container whose failing image is at index 1. -/
def badGlbB : GlbContainer := ⟨⟨[goodImage, badImage], [], []⟩, []⟩

example : patchGLBE scenarioGlb = .ok scenarioGlbResult := rfl
example : patchGltfE scenarioEmb = .ok ⟨⟨[patchedImage], [⟨0, 0, 2⟩],
    [⟨some 2, some "data:application/octet-stream;base64,AAA="⟩]⟩, none⟩ := rfl
example : patchGltfE scenarioSep = .ok ⟨⟨[patchedImage], [⟨0, 0, 2⟩],
    [⟨some 2, some "scene.bin"⟩]⟩, some [0, 0]⟩ := rfl
example : patchGLBE badGlbA = .error "AAAAA" := rfl
example : patchGLBE badGlbB = .error "AAAAA" := rfl

/-! ## Claim theorems for the container patcher -/

/-- C1 (amended): after a GLB patch of a container with at least one inline
KTX2 image, given that the pre-existing buffer views were in bounds and
non-overlapping, `buffers[0].byteLength` equals the length `L` of the binary
data *before* the final 4-byte zero padding (the stored chunk is `L` plus
that padding), and every buffer view lies within `[0, L)` with no overlap.
In the spec's monolithic scenario, `AAA=` decodes to 2 bytes, so image 0 gets
`bufferView 0` and no `uri`, `bufferViews[0] == {buffer:0, byteOffset:0,
byteLength:2}`, `buffers[0].byteLength == 2`, and the stored chunk has
4 bytes after padding. -/
theorem patchGLB_byteLength_views_spec :
    (∀ c c' : GlbContainer, patchGLBE c = .ok c' →
      hasInlineKtx2 c.gltf = true →
      ViewsBounded c.gltf.bufferViews c.binary.length →
      ViewsDisjoint c.gltf.bufferViews →
      ∃ L, c'.gltf.buffers.head?.map Buffer.byteLength = some (some L) ∧
        c'.binary.length = L + (4 - L % 4) % 4 ∧
        ViewsBounded c'.gltf.bufferViews L ∧
        ViewsDisjoint c'.gltf.bufferViews) ∧
    patchGLBE scenarioGlb = .ok scenarioGlbResult := by
  constructor
  · intro c c' h hin hbnd hdis
    simp only [patchGLBE] at h
    split at h
    · cases h
    · rename_i out hrel
      obtain ⟨⟨t, ht⟩, ⟨nv, hnv, hbd, hpw⟩, -, -, hmatch, -⟩ :=
        relocate_ok_spec _ _ _ _ _ hrel
      have hmodT : out.modified = true := by
        apply hmatch
        simpa [hasInlineKtx2, List.any_eq_true] using hin
      split at h
      · rename_i hif
        rw [hmodT] at hif
        cases hif
      · rw [Except.ok.injEq] at h
        subst h
        refine ⟨out.binary.length, ?_, ?_, ?_, ?_⟩
        · dsimp only
          cases hbuf : c.gltf.buffers with
          | nil => rfl
          | cons b bs => rfl
        · dsimp only
          rw [padTo4_length]
        · dsimp only
          intro v hv
          rw [hnv] at hv
          rcases List.mem_append.mp hv with hvo | hvn
          · have h2 : c.binary.length ≤ out.binary.length := by
              rw [ht]; simp
            exact le_trans (hbnd v hvo) h2
          · exact (hbd v hvn).2
        · dsimp only
          rw [hnv]
          refine List.pairwise_append.mpr ⟨hdis, hpw.imp fun hab => Or.inl hab, ?_⟩
          intro a ha b hb
          exact Or.inl (le_trans (hbnd a ha) (hbd b hb).1)
  · rfl

/-- Witness for C1: the universal part applied to the concrete scenario. -/
theorem patchGLB_byteLength_views_spec_witness :
    ∃ L, scenarioGlbResult.gltf.buffers.head?.map Buffer.byteLength = some (some L) ∧
      scenarioGlbResult.binary.length = L + (4 - L % 4) % 4 ∧
      ViewsBounded scenarioGlbResult.gltf.bufferViews L ∧
      ViewsDisjoint scenarioGlbResult.gltf.bufferViews :=
  patchGLB_byteLength_views_spec.1 scenarioGlb scenarioGlbResult rfl (by decide)
    (fun v hv => by cases hv) List.Pairwise.nil

/-- Counterexample for C1 as stated: in the spec's scenario the run yields
`bufferViews[0].byteLength = 2` (not 3: `AAA=` has three data characters,
hence 2 decoded bytes) and `buffers[0].byteLength = 2` (not 4: the code sets
it before the final padding), while the stored chunk is 4 bytes long, so
`buffers[0].byteLength` differs from the final chunk length. -/
theorem patchGLB_scenario_counterexample :
    patchGLBE scenarioGlb = .ok scenarioGlbResult ∧
    scenarioGlbResult.gltf.bufferViews.map BufferView.byteLength = [2] ∧
    scenarioGlbResult.gltf.buffers.map Buffer.byteLength = [some 2] ∧
    scenarioGlbResult.binary.length = 4 ∧
    ¬ patchGLBE scenarioGlb = .ok ⟨⟨[patchedImage], [⟨0, 0, 3⟩],
        [⟨some 4, none⟩]⟩, [0, 0, 0, 0]⟩ := by
  refine ⟨rfl, rfl, rfl, rfl, ?_⟩
  intro h
  have hpos : patchGLBE scenarioGlb = .ok scenarioGlbResult := rfl
  rw [hpos, Except.ok.injEq] at h
  simp [scenarioGlbResult, patchedImage] at h

/-- C2: `patch` is idempotent.  A successful GLB or GLTF patch produces a
container that the same patch maps to itself: after the first pass no image
payload with an inline `data:image/ktx2;base64,` URI remains, so the second
pass finds nothing to modify and returns without rewriting anything. -/
theorem patch_idempotent :
    (∀ c c' : GlbContainer, patchGLBE c = .ok c' → patchGLBE c' = .ok c') ∧
    (∀ d d' : GltfContainer, patchGltfE d = .ok d' → patchGltfE d' = .ok d') := by
  constructor
  · intro c c' h
    have h0 := h
    simp only [patchGLBE] at h
    split at h
    · cases h
    · rename_i out hrel
      obtain ⟨-, -, -, hnm, -, -⟩ := relocate_ok_spec _ _ _ _ _ hrel
      split at h
      · rw [Except.ok.injEq] at h
        subst h
        exact h0
      · rw [Except.ok.injEq] at h
        subst h
        exact patchGLB_of_no_match _ hnm
  · intro d d' h
    have h0 := h
    simp only [patchGltfE] at h
    split at h
    · cases h
    · split at h
      · rw [Except.ok.injEq] at h
        subst h
        exact h0
      · split at h
        · simp only [patchEmbedded] at h
          split at h
          · cases h
          · split at h
            · cases h
            · rename_i out hrel
              obtain ⟨-, -, -, hnm, -, -⟩ := relocate_ok_spec _ _ _ _ _ hrel
              rw [Except.ok.injEq] at h
              subst h
              exact patchGltf_of_no_match _ hnm
        · simp only [patchSeparate] at h
          split at h
          · rw [Except.ok.injEq] at h
            subst h
            exact h0
          · split at h
            · cases h
            · rename_i out hrel
              obtain ⟨-, -, -, hnm, -, -⟩ := relocate_ok_spec _ _ _ _ _ hrel
              rw [Except.ok.injEq] at h
              subst h
              exact patchGltf_of_no_match _ hnm

/-- Witness for C2: the scenario container patches to `scenarioGlbResult`,
which the patch then maps to itself. -/
theorem patch_idempotent_witness :
    patchGLBE scenarioGlbResult = .ok scenarioGlbResult :=
  patch_idempotent.1 scenarioGlb scenarioGlbResult rfl

/-- C3 (amended): only the monolithic (GLB) finalization pads the stored
binary chunk to a multiple of 4 bytes; a modifying GLB patch always stores a
4-byte-aligned chunk.  The SeparateFile and EmbeddedDataUri layouts pad only
*before* each appended payload, so their stored buffer ends unpadded
(see the counterexample). -/
theorem patchGLB_chunk_padded :
    ∀ c c' : GlbContainer, patchGLBE c = .ok c' → hasInlineKtx2 c.gltf = true →
      c'.binary.length % 4 = 0 := by
  intro c c' h hin
  simp only [patchGLBE] at h
  split at h
  · cases h
  · rename_i out hrel
    obtain ⟨-, -, -, -, hmatch, -⟩ := relocate_ok_spec _ _ _ _ _ hrel
    have hmodT : out.modified = true := by
      apply hmatch
      simpa [hasInlineKtx2, List.any_eq_true] using hin
    split at h
    · rename_i hif
      rw [hmodT] at hif
      cases hif
    · rw [Except.ok.injEq] at h
      subst h
      exact padTo4_mod _

/-- Witness for C3: the concrete scenario stores a 4-byte chunk. -/
theorem patchGLB_chunk_padded_witness :
    scenarioGlbResult.binary.length % 4 = 0 :=
  patchGLB_chunk_padded scenarioGlb scenarioGlbResult rfl (by decide)

/-- Counterexample for C3 as stated: in the EmbeddedDataUri layout the
stored buffer (the decode of the rewritten `buffers[0]` data URI) has 2
bytes after the patch, and in the SeparateFile layout the stored `.bin` file
has 2 bytes — neither a multiple of 4: the GLTF paths never apply the final
padding. -/
theorem patchGltf_chunk_unpadded_counterexample :
    patchGltfE scenarioEmb = .ok ⟨⟨[patchedImage], [⟨0, 0, 2⟩],
      [⟨some 2, some "data:application/octet-stream;base64,AAA="⟩]⟩, none⟩ ∧
    (dataUriTail "data:application/octet-stream;base64,AAA=").bind b64decode =
      some [0, 0] ∧
    patchGltfE scenarioSep = .ok ⟨⟨[patchedImage], [⟨0, 0, 2⟩],
      [⟨some 2, some "scene.bin"⟩]⟩, some [0, 0]⟩ ∧
    ¬ (2 % 4 = 0) :=
  ⟨rfl, rfl, rfl, by decide⟩

/-- C4 (amended): the patch is all-or-nothing — when the base64 decode of
any matched payload fails, both post-processes abort with the raised error
and the stored container is unchanged.  The failure report is the raw
`binascii.Error` of the failing payload and does not identify the image
index (see the counterexample). -/
theorem patch_abort_on_decode_failure :
    (∀ c : GlbContainer, (firstFailingPayload c.gltf.images).isSome = true →
      patchGLBRun c = c ∧ ∃ e, patchGLBE c = .error e) ∧
    (∀ d : GltfContainer, (firstFailingPayload d.gltf.images).isSome = true →
      patchGltfRun d = d ∧ ∃ e, patchGltfE d = .error e) := by
  constructor
  · intro c hf
    obtain ⟨p, hp⟩ := Option.isSome_iff_exists.mp hf
    have herr : patchGLBE c = .error p := by
      simp only [patchGLBE]
      rw [relocate_error_of_fail _ _ _ _ _ hp]
    exact ⟨by simp [patchGLBRun, herr], p, herr⟩
  · intro d hf
    obtain ⟨p, hp⟩ := Option.isSome_iff_exists.mp hf
    have herr : patchGltfE d = .error p := by
      simp only [patchGltfE]
      rw [hp]
    exact ⟨by simp [patchGltfRun, herr], p, herr⟩

/-- Witness for C4: a GLB container with an undecodable payload is left
unchanged. -/
theorem patch_abort_on_decode_failure_witness :
    patchGLBRun badGlbA = badGlbA ∧ ∃ e, patchGLBE badGlbA = .error e :=
  patch_abort_on_decode_failure.1 badGlbA (by decide)

/-- Counterexample for the reporting part of C4 as stated: two containers
whose undecodable image sits at different indices (0 and 1) produce exactly
the same error value, so the reported failure does not identify which image
index failed. -/
theorem patch_error_no_index_counterexample :
    patchGLBE badGlbA = .error "AAAAA" ∧ patchGLBE badGlbB = .error "AAAAA" ∧
    firstFailingIndex badGlbA.gltf.images = some 0 ∧
    firstFailingIndex badGlbB.gltf.images = some 1 :=
  ⟨rfl, rfl, rfl, rfl⟩

/-- C10: a GLB patch only appends — the pre-existing binary chunk is a
prefix of the stored chunk (padding and relocated payloads go after it), and
the pre-existing `bufferViews` entries are an unchanged prefix of the new
list, so earlier buffer-view references still address the same bytes. -/
theorem patchGLB_preserves_existing :
    ∀ c c' : GlbContainer, patchGLBE c = .ok c' →
      (∃ t, c'.binary = c.binary ++ t) ∧
      (∃ nv, c'.gltf.bufferViews = c.gltf.bufferViews ++ nv) := by
  intro c c' h
  simp only [patchGLBE] at h
  split at h
  · cases h
  · rename_i out hrel
    obtain ⟨⟨t, ht⟩, ⟨nv, hnv, -, -⟩, -, -, -, -⟩ := relocate_ok_spec _ _ _ _ _ hrel
    split at h
    · rw [Except.ok.injEq] at h
      subst h
      exact ⟨⟨[], by simp⟩, ⟨[], by simp⟩⟩
    · rw [Except.ok.injEq] at h
      subst h
      constructor
      · obtain ⟨q, hq⟩ := padTo4_prefix out.binary
        refine ⟨t ++ q, ?_⟩
        dsimp only
        rw [hq, ht]
        simp
      · exact ⟨nv, by dsimp only; exact hnv⟩

/-- Witness for C10: in the concrete scenario the (empty) original chunk and
view list are prefixes of the results. -/
theorem patchGLB_preserves_existing_witness :
    (∃ t, scenarioGlbResult.binary = scenarioGlb.binary ++ t) ∧
    (∃ nv, scenarioGlbResult.gltf.bufferViews = scenarioGlb.gltf.bufferViews ++ nv) :=
  patchGLB_preserves_existing scenarioGlb scenarioGlbResult rfl

/-! ## Fallback KTX2 header parser (`src/ktx2_decode.py`, `decode_ktx2_fallback`)

Python's `struct.unpack_from` raises `struct.error` when the buffer is too
short; together with every other exception of the fallback it is caught by
the surrounding `except`, which returns `None`.  The embedding therefore
threads `Option` through every fixed-offset read, so the Lean function is
total: no input can crash it. -/

/-- `struct.unpack_from` style bounded read: `n` bytes at `off`, failing
(like `struct.error`) when the buffer is too short. -/
def readBytes (data : List Nat) (off n : Nat) : Option (List Nat) :=
  if off + n ≤ data.length then some ((data.drop off).take n) else none

/-- Little-endian value of a byte list. -/
def leVal (bs : List Nat) : Nat :=
  bs.foldr (fun b acc => b + 256 * acc) 0

/-- `struct.unpack_from('<I', data, off)`. -/
def readU32 (data : List Nat) (off : Nat) : Option Nat :=
  (readBytes data off 4).map leVal

/-- `struct.unpack_from('<Q', data, off)`. -/
def readU64 (data : List Nat) (off : Nat) : Option Nat :=
  (readBytes data off 8).map leVal

/-- The fixed 12-byte KTX2 magic signature. -/
def ktx2Magic : List Nat :=
  [0xAB, 0x4B, 0x54, 0x58, 0x20, 0x32, 0x30, 0xBB, 0x0D, 0x0A, 0x1A, 0x0A]

/-- `pixels.reshape((h, w, 4))` as a list of `h` rows of `w*4` bytes. -/
def rowsOf (l : List Nat) (h rowLen : Nat) : List (List Nat) :=
  (List.range h).map fun r => (l.drop (r * rowLen)).take rowLen

/-- The `vk_format == 37` block (src/ktx2_decode.py lines 146-175): read the
index/level offsets, slice the level-0 data (Python slices clamp), and
succeed only when the slice is exactly `width*height*4` bytes, returning the
vertically flipped pixel rows. -/
def readLevel0 (data : List Nat) (pixel_width pixel_height : Nat) :
    Option (Nat × Nat × List (List Nat)) := do
  let _dfd_offset ← readU32 data 48
  let _dfd_size ← readU32 data 52
  let _kvd_offset ← readU32 data 56
  let _kvd_size ← readU32 data 60
  let _sgd_offset ← readU64 data 64
  let _sgd_size ← readU64 data 72
  let level_offset ← readU64 data 80
  let level_size ← readU64 data 88
  let pixel_data := (data.drop level_offset).take level_size
  if pixel_data.length = pixel_width * pixel_height * 4 then
    some (pixel_width, pixel_height,
      (rowsOf pixel_data pixel_height (pixel_width * 4)).reverse)
  else none

/-- `decode_ktx2_fallback` (src/ktx2_decode.py lines 92-182), up to the PNG
re-encoding of the successfully extracted pixels: reject a wrong magic;
read the fixed-offset header fields (a short buffer fails the read, which
the surrounding `except` turns into `None`); reject any supercompression
scheme other than 0 and any format other than
`VK_FORMAT_R8G8B8A8_UNORM = 37`; otherwise extract level 0. -/
def decode_ktx2_fallback (data : List Nat) :
    Option (Nat × Nat × List (List Nat)) :=
  if data.take 12 ≠ ktx2Magic then none
  else do
    let vk_format ← readU32 data 12
    let _type_size ← readU32 data 16
    let pixel_width ← readU32 data 20
    let pixel_height ← readU32 data 24
    let _pixel_depth ← readU32 data 28
    let _layer_count ← readU32 data 32
    let _face_count ← readU32 data 36
    let _level_count ← readU32 data 40
    let supercompression_scheme ← readU32 data 44
    if supercompression_scheme ≠ 0 then none
    else if vk_format = 37 then readLevel0 data pixel_width pixel_height
    else none

lemma readLevel0_short (data : List Nat) (w h : Nat) (hlen : data.length < 96) :
    readLevel0 data w h = none := by
  rcases h48 : readU32 data 48 with _ | v48
  · simp [readLevel0, h48]
  rcases h52 : readU32 data 52 with _ | v52
  · simp [readLevel0, h48, h52]
  rcases h56 : readU32 data 56 with _ | v56
  · simp [readLevel0, h48, h52, h56]
  rcases h60 : readU32 data 60 with _ | v60
  · simp [readLevel0, h48, h52, h56, h60]
  rcases h64 : readU64 data 64 with _ | v64
  · simp [readLevel0, h48, h52, h56, h60, h64]
  rcases h72 : readU64 data 72 with _ | v72
  · simp [readLevel0, h48, h52, h56, h60, h64, h72]
  rcases h80 : readU64 data 80 with _ | v80
  · simp [readLevel0, h48, h52, h56, h60, h64, h72, h80]
  have h88 : readU64 data 88 = none := by
    unfold readU64 readBytes
    rw [if_neg (by omega)]
    rfl
  simp [readLevel0, h48, h52, h56, h60, h64, h72, h80, h88]

lemma readLevel0_mismatch (data : List Nat) (w h lo ls : Nat)
    (h80 : readU64 data 80 = some lo) (h88 : readU64 data 88 = some ls)
    (hne : ((data.drop lo).take ls).length ≠ w * h * 4) :
    readLevel0 data w h = none := by
  rcases h48 : readU32 data 48 with _ | v48
  · simp [readLevel0, h48]
  rcases h52 : readU32 data 52 with _ | v52
  · simp [readLevel0, h48, h52]
  rcases h56 : readU32 data 56 with _ | v56
  · simp [readLevel0, h48, h52, h56]
  rcases h60 : readU32 data 60 with _ | v60
  · simp [readLevel0, h48, h52, h56, h60]
  rcases h64 : readU64 data 64 with _ | v64
  · simp [readLevel0, h48, h52, h56, h60, h64]
  rcases h72 : readU64 data 72 with _ | v72
  · simp [readLevel0, h48, h52, h56, h60, h64, h72]
  have hne2 : ¬ (ls ⊓ (data.length - lo) = w * h * 4) := by
    simpa using hne
  simp [readLevel0, h48, h52, h56, h60, h64, h72, h80, h88, hne2]

/-- Case analysis of the fallback decoder's control flow: either it rejects,
or the header reads succeeded with supercompression 0 and format 37 and the
result is that of the level-0 extraction. -/
lemma decode_fallback_cases (data : List Nat) :
    decode_ktx2_fallback data = none ∨
    ∃ vk w h sc, readU32 data 12 = some vk ∧ readU32 data 20 = some w ∧
      readU32 data 24 = some h ∧ readU32 data 44 = some sc ∧
      sc = 0 ∧ vk = 37 ∧
      decode_ktx2_fallback data = readLevel0 data w h := by
  by_cases hmag : data.take 12 = ktx2Magic
  · rcases h12 : readU32 data 12 with _ | v12
    · exact Or.inl (by simp [decode_ktx2_fallback, hmag, h12])
    rcases h16 : readU32 data 16 with _ | v16
    · exact Or.inl (by simp [decode_ktx2_fallback, hmag, h12, h16])
    rcases h20 : readU32 data 20 with _ | v20
    · exact Or.inl (by simp [decode_ktx2_fallback, hmag, h12, h16, h20])
    rcases h24 : readU32 data 24 with _ | v24
    · exact Or.inl (by simp [decode_ktx2_fallback, hmag, h12, h16, h20, h24])
    rcases h28 : readU32 data 28 with _ | v28
    · exact Or.inl (by simp [decode_ktx2_fallback, hmag, h12, h16, h20, h24, h28])
    rcases h32 : readU32 data 32 with _ | v32
    · exact Or.inl (by simp [decode_ktx2_fallback, hmag, h12, h16, h20, h24, h28,
        h32])
    rcases h36 : readU32 data 36 with _ | v36
    · exact Or.inl (by simp [decode_ktx2_fallback, hmag, h12, h16, h20, h24, h28,
        h32, h36])
    rcases h40 : readU32 data 40 with _ | v40
    · exact Or.inl (by simp [decode_ktx2_fallback, hmag, h12, h16, h20, h24, h28,
        h32, h36, h40])
    rcases h44 : readU32 data 44 with _ | v44
    · exact Or.inl (by simp [decode_ktx2_fallback, hmag, h12, h16, h20, h24, h28,
        h32, h36, h40, h44])
    by_cases hsc : v44 = 0
    · by_cases hvk : v12 = 37
      · refine Or.inr ⟨v12, v20, v24, v44, rfl, rfl, rfl, rfl, hsc, hvk, ?_⟩
        simp [decode_ktx2_fallback, hmag, h12, h16, h20, h24, h28, h32, h36, h40,
          h44, hsc, hvk]
      · exact Or.inl (by simp [decode_ktx2_fallback, hmag, h12, h16, h20, h24,
          h28, h32, h36, h40, h44, hsc, hvk])
    · exact Or.inl (by simp [decode_ktx2_fallback, hmag, h12, h16, h20, h24, h28,
        h32, h36, h40, h44, hsc])
  · exact Or.inl (by simp [decode_ktx2_fallback, hmag])

/-- C9: the fallback decoder is a total function (the embedding threads
`Option` through every read, mirroring the `except` that converts any raised
exception into `None`), and it returns `None` for every input shorter than
the minimal parseable size, every input whose supercompression scheme field
is nonzero, every format code other than `VK_FORMAT_R8G8B8A8_UNORM = 37`,
and every input whose level-0 slice is not exactly `width*height*4` bytes. -/
theorem decode_fallback_rejects :
    (∀ data : List Nat, data.length < 96 → decode_ktx2_fallback data = none) ∧
    (∀ data s, readU32 data 44 = some s → s ≠ 0 →
      decode_ktx2_fallback data = none) ∧
    (∀ data f, readU32 data 12 = some f → f ≠ 37 →
      decode_ktx2_fallback data = none) ∧
    (∀ data w h lo ls, readU32 data 20 = some w → readU32 data 24 = some h →
      readU64 data 80 = some lo → readU64 data 88 = some ls →
      ((data.drop lo).take ls).length ≠ w * h * 4 →
      decode_ktx2_fallback data = none) := by
  refine ⟨?_, ?_, ?_, ?_⟩
  · intro data hlen
    rcases decode_fallback_cases data with hd | ⟨vk, w, h, sc, -, -, -, -, -, -, hd⟩
    · exact hd
    · rw [hd]
      exact readLevel0_short data w h hlen
  · intro data s hs hs0
    rcases decode_fallback_cases data with hd | ⟨vk, w, h, sc, -, -, -, h44, hsc, -, -⟩
    · exact hd
    · rw [h44, Option.some.injEq] at hs
      exact absurd (hs ▸ hsc) hs0
  · intro data f hf hf37
    rcases decode_fallback_cases data with hd | ⟨vk, w, h, sc, h12, -, -, -, -, hvk, -⟩
    · exact hd
    · rw [h12, Option.some.injEq] at hf
      exact absurd (hf ▸ hvk) hf37
  · intro data w h lo ls hw hh hlo hls hne
    rcases decode_fallback_cases data with hd | ⟨vk, w', h', sc, -, hw', hh', -, -, -, hd⟩
    · exact hd
    · rw [hw', Option.some.injEq] at hw
      rw [hh', Option.some.injEq] at hh
      rw [hd]
      exact readLevel0_mismatch data w' h' lo ls hlo hls (by rw [hw, hh]; exact hne)

/-- Witness for C9: a 48-byte input with a correct magic and supercompression
scheme 1 is rejected. -/
theorem decode_fallback_rejects_witness :
    decode_ktx2_fallback (ktx2Magic ++ List.replicate 32 0 ++ [1, 0, 0, 0]) = none :=
  decode_fallback_rejects.2.1 (ktx2Magic ++ List.replicate 32 0 ++ [1, 0, 0, 0]) 1
    (by decide) (by decide)

/-! ## FaceIdentifier (`src/ktx2_envmap_decode.py`, `sort_cubemap_faces`)

The name heuristic compiles the six regular expressions of `face_patterns`.
Each of them is an alternation of sequences whose items are single
characters, character classes (`[_\-]`), or optional (`?`) versions of
those, so a tiny evaluator for exactly that fragment suffices:
`RItem` is one item, a sequence is a `List RItem`, an alternation a list of
sequences, and `re.search` tries every start position.  `re.IGNORECASE` is
modelled by lowercasing each input character before the class test. -/

/-- One regular-expression item: a character class (a literal character is a
singleton class) with an optional `?` quantifier. -/
structure RItem where
  cs : List Char
  opt : Bool
deriving DecidableEq, Repr

/-- ASCII lowercasing of one character (model of `re.IGNORECASE`). -/
def lowerChar (c : Char) : Char :=
  if 'A' ≤ c ∧ c ≤ 'Z' then Char.ofNat (c.toNat + 32) else c

/-- Match a sequence of items against a prefix of the text. -/
def seqMatch : List RItem → List Char → Bool
  | [], _ => true
  | it :: rest, [] => it.opt && seqMatch rest []
  | it :: rest, c :: cs =>
      (it.cs.contains (lowerChar c) && seqMatch rest cs) ||
      (it.opt && seqMatch rest (c :: cs))

/-- `re.search` of an alternation of item sequences: some alternative
matches at some start position. -/
def reSearch (alts : List (List RItem)) (s : List Char) : Bool :=
  s.tails.any fun t => alts.any fun a => seqMatch a t

/-- A literal string as an item sequence. -/
def lit (s : String) : List RItem :=
  s.data.map fun c => ⟨[c], false⟩

/-- The expected face order `['+X', '-X', '+Y', '-Y', '+Z', '-Z']`. -/
def face_order : List String := ["+X", "-X", "+Y", "-Y", "+Z", "-Z"]

/-- The `face_patterns` dict (lines 252-259), in insertion order:
`+X: [_\-]?\+?X|right|px`, `-X: [_\-]\-X|left|nx`, `+Y: [_\-]?\+?Y|top|up|py`,
`-Y: [_\-]\-Y|bottom|down|ny`, `+Z: [_\-]?\+?Z|front|pz`,
`-Z: [_\-]\-Z|back|nz`, all with `re.IGNORECASE`. -/
def face_patterns : List (String × List (List RItem)) :=
  [("+X", [[⟨['_', '-'], true⟩, ⟨['+'], true⟩, ⟨['x'], false⟩], lit "right", lit "px"]),
   ("-X", [[⟨['_', '-'], false⟩, ⟨['-'], false⟩, ⟨['x'], false⟩], lit "left", lit "nx"]),
   ("+Y", [[⟨['_', '-'], true⟩, ⟨['+'], true⟩, ⟨['y'], false⟩], lit "top", lit "up",
      lit "py"]),
   ("-Y", [[⟨['_', '-'], false⟩, ⟨['-'], false⟩, ⟨['y'], false⟩], lit "bottom",
      lit "down", lit "ny"]),
   ("+Z", [[⟨['_', '-'], true⟩, ⟨['+'], true⟩, ⟨['z'], false⟩], lit "front", lit "pz"]),
   ("-Z", [[⟨['_', '-'], false⟩, ⟨['-'], false⟩, ⟨['z'], false⟩], lit "back", lit "nz"])]

/-- `os.path.join(temp_dir, fname)` (POSIX). -/
def joinPath (d f : String) : String := d ++ String.mk [Char.ofNat 47] ++ f

/-- The inner pattern loop for one file name: the first pattern that matches
claims the file for its face, unless that face is already identified, in
which case the remaining patterns are tried. -/
def tryPatterns (temp_dir : String) :
    List (String × List (List RItem)) → String → List (String × String) →
    List (String × String)
  | [], _, identified => identified
  | (fn, pat) :: ps, fname, identified =>
    if reSearch pat fname.data then
      if (identified.map Prod.fst).contains fn then tryPatterns temp_dir ps fname identified
      else identified ++ [(fn, joinPath temp_dir fname)]
    else tryPatterns temp_dir ps fname identified

/-- The first (name-token) heuristic: scan the file names in order, letting
each claim a face via `tryPatterns`.  The association list models the
`identified` dict (insertion-ordered, each face at most once). -/
def identifyByName (temp_dir : String) : List String → List (String × String) →
    List (String × String)
  | [], identified => identified
  | fname :: rest, identified =>
    identifyByName temp_dir rest (tryPatterns temp_dir face_patterns fname identified)

/-- `identified[face]` lookup. -/
def lookupD (l : List (String × String)) (k : String) : String :=
  match l.find? (fun p => p.1 == k) with
  | some p => p.2
  | none => ""

/-- Value of a decimal digit character. -/
def digitVal (c : Char) : Option Nat :=
  if '0' ≤ c ∧ c ≤ '9' then some (c.toNat - 48) else none

/-- Longest digit prefix and the remaining characters. -/
def takeDigits : List Char → List Nat × List Char
  | [] => ([], [])
  | c :: cs =>
    match digitVal c with
    | some d =>
      let p := takeDigits cs
      (d :: p.1, p.2)
    | none => ([], c :: cs)

/-- `int` of a digit run. -/
def digitsToNat (ds : List Nat) : Nat := ds.foldl (fun a d => a * 10 + d) 0

/-- Match `_f(\d+)_` at the start of the text. -/
def fIdxAt : List Char → Option Nat
  | '_' :: 'f' :: cs =>
    let p := takeDigits cs
    if p.1 ≠ [] then
      match p.2 with
      | '_' :: _ => some (digitsToNat p.1)
      | _ => none
    else none
  | _ => none

/-- `re.search(r'_f(\d+)_', fname)`: the leftmost face-index token. -/
def findFIdx (l : List Char) : Option Nat :=
  (l.tails.filterMap fIdxAt).head?

/-- All maximal digit runs of the text (`re.findall(r'(\d+)', fname)`),
via an accumulator for the run in progress (kept reversed). -/
def digitRunsGo : List Char → List Nat → List (List Nat)
  | [], cur => if cur = [] then [] else [cur.reverse]
  | c :: cs, cur =>
    match digitVal c with
    | some d => digitRunsGo cs (d :: cur)
    | none => if cur = [] then digitRunsGo cs [] else cur.reverse :: digitRunsGo cs []

/-- The last number appearing in the text, when any. -/
def lastNumber (l : List Char) : Option Nat :=
  ((digitRunsGo l []).getLast?).map digitsToNat

/-- Stable insertion of `x` after every element `y` with `le y x` (the
placement Python's stable sort gives an element arriving later). -/
def insertStable (le : α → α → Bool) (x : α) : List α → List α
  | [] => [x]
  | y :: ys => if le y x then y :: insertStable le x ys else x :: y :: ys

/-- Model of Python's stable `sorted` / `list.sort`. -/
def pySort (le : α → α → Bool) (l : List α) : List α :=
  l.foldl (fun acc x => insertStable le x acc) []

/-- `sort_cubemap_faces` (src/ktx2_envmap_decode.py lines 229-310): the
name-token heuristic wins when it identifies all six faces; otherwise the
`_f<N>_` face-index heuristic, then the last-number heuristic over the
lexicographically sorted names, and finally plain alphabetical order. -/
def sortCubemapFaces (filenames : List String) (temp_dir : String) : List String :=
  let identified := identifyByName temp_dir filenames []
  if identified.length = 6 then face_order.map (lookupD identified)
  else
    let face_indexed := filenames.filterMap fun fname =>
      (findFIdx fname.data).map fun i => (i, joinPath temp_dir fname)
    if face_indexed.length = 6 then
      (pySort (fun a b => a.1 ≤ b.1) face_indexed).map Prod.snd
    else
      let numbered := (pySort (fun a b : String => a ≤ b) filenames).filterMap
        fun fname => (lastNumber fname.data).map fun i => (i, joinPath temp_dir fname)
      if numbered.length = 6 then (pySort (fun a b => a.1 ≤ b.1) numbered).map Prod.snd
      else (pySort (fun a b : String => a ≤ b) filenames).map (joinPath temp_dir)

/-- C7: on the file names `px.png, nx.png, py.png, ny.png, pz.png, nz.png`
(listed in this order) the first heuristic identifies all six axes — each
name claims its axis through the per-axis token patterns — and
`sort_cubemap_faces` returns the files in the canonical order
`[+X, -X, +Y, -Y, +Z, -Z]`. -/
theorem face_identifier_canonical :
    identifyByName "d" ["px.png", "nx.png", "py.png", "ny.png", "pz.png", "nz.png"] [] =
      [("+X", "d/px.png"), ("-X", "d/nx.png"), ("+Y", "d/py.png"),
       ("-Y", "d/ny.png"), ("+Z", "d/pz.png"), ("-Z", "d/nz.png")] ∧
    sortCubemapFaces ["px.png", "nx.png", "py.png", "ny.png", "pz.png", "nz.png"] "d" =
      ["d/px.png", "d/nx.png", "d/py.png", "d/ny.png", "d/pz.png", "d/nz.png"] :=
  ⟨rfl, rfl⟩

/-! ## ProjectionEngine

The Python projection code computes with IEEE doubles (`math.atan2`,
`math.asin`, `math.sqrt`, numpy float arrays); the embedding idealises those
as real numbers.  `pyInt` is Python `int()` (truncation toward zero), and
Python's `max`/`min` on numbers are `max`/`min`. -/

open Real in
/-- `math.atan2 y x`. -/
noncomputable def atan2 (y x : ℝ) : ℝ :=
  if 0 < x then arctan (y / x)
  else if x < 0 then
    if 0 ≤ y then arctan (y / x) + π else arctan (y / x) - π
  else if 0 < y then π / 2
  else if y < 0 then -(π / 2)
  else 0

/-- Python `int()`: truncation toward zero. -/
noncomputable def pyInt (r : ℝ) : ℤ :=
  if 0 ≤ r then ⌊r⌋ else -⌊-r⌋

/-- The `face_configs` table of `equirect_to_cubemap_faces`
(src/ktx2_envmap_encode.py lines 219-232), in source order
`+X, -X, +Y, -Y, +Z, -Z`. -/
noncomputable def face_configs (i : Fin 6) : ℝ → ℝ → ℝ × ℝ × ℝ :=
  match i with
  | ⟨0, _⟩ => fun u v => (1, v, -u)
  | ⟨1, _⟩ => fun u v => (-1, v, u)
  | ⟨2, _⟩ => fun u v => (u, 1, -v)
  | ⟨3, _⟩ => fun u v => (u, -1, v)
  | ⟨4, _⟩ => fun u v => (u, v, 1)
  | ⟨5, _⟩ => fun u v => (-u, v, -1)
  | ⟨n + 6, h⟩ => absurd h (by omega)

open Real in
/-- Source pixel selected by the encode path of `equirect_to_cubemap_faces`
(lines 238-264) for face `i` and destination pixel `(x, y)`:
`u = 2x/res - 1`, `v = 2y/res - 1`, direction from `face_configs`,
normalisation, `theta = atan2(dx, dz)`, `phi = asin(dy)`,
`eq_u = (theta + π)/(2π)`, `eq_v = (phi + π/2)/π`,
`src_x = int(eq_u·(w-1))`, `src_y = int((1 - eq_v)·(h-1))`, both clamped to
the source bounds.  (The loop stores the value at row `res-1-y` of the numpy
array, and the array is then handed to Blender bottom-up, so in the saved
face raster the row index is `y` again.) -/
noncomputable def encodeSrcPixel (w h res : ℕ) (i : Fin 6) (x y : ℕ) : ℤ × ℤ :=
  let u : ℝ := 2 * x / res - 1
  let v : ℝ := 2 * y / res - 1
  let d := face_configs i u v
  let len := Real.sqrt (d.1 * d.1 + d.2.1 * d.2.1 + d.2.2 * d.2.2)
  let dx := d.1 / len
  let dy := d.2.1 / len
  let dz := d.2.2 / len
  let theta := atan2 dx dz
  let phi := arcsin dy
  let eq_u := (theta + π) / (2 * π)
  let eq_v := (phi + π / 2) / π
  let sx := pyInt (eq_u * ((w : ℝ) - 1))
  let sy := pyInt ((1 - eq_v) * ((h : ℝ) - 1))
  (max 0 (min ((w : ℤ) - 1) sx), max 0 (min ((h : ℤ) - 1) sy))

/-- Modelled from the spec: the face basis table of §4.2
(`+X:(1,v,-u), -X:(-1,v,u), +Y:(u,1,-v), -Y:(u,-1,v), +Z:(u,v,1),
-Z:(-u,v,-1)`), for the refinement comparison with `face_configs`. -/
noncomputable def specFaceDir (i : Fin 6) : ℝ → ℝ → ℝ × ℝ × ℝ :=
  match i with
  | ⟨0, _⟩ => fun u v => (1, v, -u)
  | ⟨1, _⟩ => fun u v => (-1, v, u)
  | ⟨2, _⟩ => fun u v => (u, 1, -v)
  | ⟨3, _⟩ => fun u v => (u, -1, v)
  | ⟨4, _⟩ => fun u v => (u, v, 1)
  | ⟨5, _⟩ => fun u v => (-u, v, -1)
  | ⟨n + 6, h⟩ => absurd h (by omega)

open Real in
/-- Modelled from the spec: the claimed per-pixel selection rule —
`u = 2x/res−1`, `v = 2y/res−1`, direction from the spec table, normalise,
`theta = atan2(dx,dz)`, `phi = asin(dy)`, `eq_u = (theta+π)/(2π)`,
`eq_v = 1 − (phi+π/2)/π`, source coordinates clamped to the source
bounds. -/
noncomputable def specSrcPixel (w h res : ℕ) (i : Fin 6) (x y : ℕ) : ℤ × ℤ :=
  let u : ℝ := 2 * x / res - 1
  let v : ℝ := 2 * y / res - 1
  let d := specFaceDir i u v
  let len := Real.sqrt (d.1 * d.1 + d.2.1 * d.2.1 + d.2.2 * d.2.2)
  let dx := d.1 / len
  let dy := d.2.1 / len
  let dz := d.2.2 / len
  let theta := atan2 dx dz
  let phi := arcsin dy
  let eq_u := (theta + π) / (2 * π)
  let eq_v := 1 - (phi + π / 2) / π
  let sx := pyInt (eq_u * ((w : ℝ) - 1))
  let sy := pyInt (eq_v * ((h : ℝ) - 1))
  (max 0 (min ((w : ℤ) - 1) sx), max 0 (min ((h : ℤ) - 1) sy))

/-- C5: the encode path produces the six faces in the canonical order
`+X,-X,+Y,-Y,+Z,-Z` with exactly the spec's basis table — `face_configs i`
coincides with the spec table at every index — and for every face and
destination pixel the source pixel selected by the code equals the one the
spec's formulas select (the code computes `eq_v = (phi+π/2)/π` and uses
`1 − eq_v`, which is exactly the spec's `eq_v = 1 − (phi+π/2)/π`). -/
theorem encode_matches_spec :
    (∀ (i : Fin 6) (u v : ℝ), face_configs i u v = specFaceDir i u v) ∧
    (∀ (w h res : ℕ) (i : Fin 6) (x y : ℕ),
      encodeSrcPixel w h res i x y = specSrcPixel w h res i x y) := by
  constructor
  · intro i u v
    fin_cases i <;> rfl
  · intro w h res i x y
    have hfc : face_configs i = specFaceDir i := by
      fin_cases i <;> rfl
    simp only [encodeSrcPixel, specSrcPixel, hfc]

/-- Face selection and per-face inverse of `cubemap_faces_to_equirectangular`
(src/ktx2_envmap_decode.py lines 421-470): `max_axis = max(abs_x, abs_y,
abs_z)`; the `if max_axis == abs_x / elif max_axis == abs_y / else` chain
(ties therefore go to X over Y over Z), the sign of the winning component
picking the positive or negative face, and the closed-form per-face
`face_u`/`face_v`. -/
noncomputable def selectFaceUV (dx dy dz : ℝ) : Fin 6 × ℝ × ℝ :=
  let abs_x := |dx|
  let abs_y := |dy|
  let abs_z := |dz|
  let max_axis := max (max abs_x abs_y) abs_z
  if max_axis = abs_x then
    if 0 < dx then (0, -dz / dx, dy / dx)
    else (1, dz / (-dx), dy / (-dx))
  else if max_axis = abs_y then
    if 0 < dy then (2, dx / dy, -dz / dy)
    else (3, dx / (-dy), dz / (-dy))
  else
    if 0 < dz then (4, dx / dz, dy / dz)
    else (5, dx / dz, dy / (-dz))

/-- Modelled from the spec: select the face whose axis has the largest
absolute component, ties broken by the fixed priority X>Y>Z, the sign of
that component picking the positive or negative face. -/
noncomputable def specFaceSelect (dx dy dz : ℝ) : Fin 6 :=
  if |dy| ≤ |dx| ∧ |dz| ≤ |dx| then (if 0 < dx then 0 else 1)
  else if |dz| ≤ |dy| then (if 0 < dy then 2 else 3)
  else (if 0 < dz then 4 else 5)

lemma abs3_max_pos (dx dy dz : ℝ) (h : ¬ (dx = 0 ∧ dy = 0 ∧ dz = 0)) :
    0 < max (max |dx| |dy|) |dz| := by
  rcases lt_or_le 0 (max (max |dx| |dy|) |dz|) with hp | hp
  · exact hp
  · exfalso
    apply h
    have h1 : |dx| ≤ 0 := le_trans (le_trans (le_max_left _ _) (le_max_left _ _)) hp
    have h2 : |dy| ≤ 0 := le_trans (le_trans (le_max_right _ _) (le_max_left _ _)) hp
    have h3 : |dz| ≤ 0 := le_trans (le_max_right _ _) hp
    exact ⟨abs_nonpos_iff.mp h1, abs_nonpos_iff.mp h2, abs_nonpos_iff.mp h3⟩

/-- The code's `max`/`==` chain selects exactly the spec's
largest-absolute-component face with ties X>Y>Z. -/
lemma selectFace_eq_spec (dx dy dz : ℝ) :
    (selectFaceUV dx dy dz).1 = specFaceSelect dx dy dz := by
  simp only [selectFaceUV, specFaceSelect]
  by_cases c1 : max (max |dx| |dy|) |dz| = |dx|
  · have hay : |dy| ≤ |dx| := by
      rw [← c1]
      exact le_trans (le_max_right _ _) (le_max_left _ _)
    have haz : |dz| ≤ |dx| := by
      rw [← c1]
      exact le_max_right _ _
    by_cases c2 : 0 < dx <;> simp [c1, hay, haz, c2]
  · have hs1 : ¬ (|dy| ≤ |dx| ∧ |dz| ≤ |dx|) := by
      rintro ⟨hay, haz⟩
      exact c1 (le_antisymm (max_le (max_le le_rfl hay) haz)
        (le_trans (le_max_left _ _) (le_max_left _ _)))
    by_cases c3 : max (max |dx| |dy|) |dz| = |dy|
    · have haz : |dz| ≤ |dy| := by
        rw [← c3]
        exact le_max_right _ _
      have hxy : |dx| ≤ |dy| := by
        rw [← c3]
        exact le_trans (le_max_left _ _) (le_max_left _ _)
      have hyx : ¬ (|dy| ≤ |dx|) := fun hy => hs1 ⟨hy, le_trans haz hy⟩
      have hne : ¬ (|dy| = |dx|) := fun he => hyx (le_of_eq he)
      by_cases c4 : 0 < dy <;> simp [c1, c3, hs1, haz, hxy, hyx, hne, c4]
    · have hs3 : ¬ (|dz| ≤ |dy|) := by
        intro haz
        rcases max_choice (max |dx| |dy|) |dz| with hc | hc
        · rcases max_choice |dx| |dy| with hd | hd
          · exact c1 (hc.trans hd)
          · exact c3 (hc.trans hd)
        · have hzy : max (max |dx| |dy|) |dz| = max |dx| |dy| :=
            max_eq_left (le_trans haz (le_max_right _ _))
          rcases max_choice |dx| |dy| with hd | hd
          · exact c1 (hzy.trans hd)
          · exact c3 (hzy.trans hd)
      by_cases c5 : 0 < dz <;> simp [c1, c3, hs1, hs3, c5]

/-- C6: for every nonzero direction, the decode path picks the face whose
axis has the largest absolute component (ties X>Y>Z, exactly the spec's
rule), the closed-form per-face inverse yields `(face_u, face_v) ∈ [-1,1]²`,
and composing it with that face's basis function from the encode table
recovers the direction up to a positive scalar — i.e. the inverse composed
with the basis is the identity on directions that select that face.  (The
face coordinates are then clamped to pixel bounds and the face pixel
copied.) -/
theorem decode_face_inverse :
    ∀ dx dy dz : ℝ, ¬ (dx = 0 ∧ dy = 0 ∧ dz = 0) →
      (selectFaceUV dx dy dz).1 = specFaceSelect dx dy dz ∧
      |(selectFaceUV dx dy dz).2.1| ≤ 1 ∧
      |(selectFaceUV dx dy dz).2.2| ≤ 1 ∧
      ∃ t : ℝ, 0 < t ∧
        face_configs (selectFaceUV dx dy dz).1
          (selectFaceUV dx dy dz).2.1 (selectFaceUV dx dy dz).2.2 =
          (t * dx, t * dy, t * dz) := by
  intro dx dy dz h0
  refine ⟨selectFace_eq_spec dx dy dz, ?_⟩
  have hm := abs3_max_pos dx dy dz h0
  simp only [selectFaceUV]
  split_ifs with c1 c2 c3 c4 c5
  · -- +X face
    have hax : (0:ℝ) < |dx| := c1 ▸ hm
    have hdx : dx ≠ 0 := ne_of_gt c2
    have hay : |dy| ≤ |dx| := by
      rw [← c1]
      exact le_trans (le_max_right _ _) (le_max_left _ _)
    have haz : |dz| ≤ |dx| := by
      rw [← c1]
      exact le_max_right _ _
    refine ⟨?_, ?_, 1 / dx, one_div_pos.mpr c2, ?_⟩
    · simp only [abs_neg, abs_div]
      exact div_le_one_of_le₀ haz (abs_nonneg _)
    · simp only [abs_div]
      exact div_le_one_of_le₀ hay (abs_nonneg _)
    · have fc : face_configs 0 = fun u v => ((1 : ℝ), v, -u) := rfl
      rw [fc]
      simp only [Prod.mk.injEq]
      refine ⟨by field_simp, by field_simp, by field_simp⟩
  · -- -X face
    have hax : (0:ℝ) < |dx| := c1 ▸ hm
    have hdx : dx ≠ 0 := abs_pos.mp hax
    have hdxn : dx < 0 := lt_of_le_of_ne (not_lt.mp c2) hdx
    have hnd : (0:ℝ) < -dx := neg_pos.mpr hdxn
    have hay : |dy| ≤ |dx| := by
      rw [← c1]
      exact le_trans (le_max_right _ _) (le_max_left _ _)
    have haz : |dz| ≤ |dx| := by
      rw [← c1]
      exact le_max_right _ _
    refine ⟨?_, ?_, (-dx)⁻¹, inv_pos.mpr hnd, ?_⟩
    · simp only [abs_div, abs_neg]
      exact div_le_one_of_le₀ haz (abs_nonneg _)
    · simp only [abs_div, abs_neg]
      exact div_le_one_of_le₀ hay (abs_nonneg _)
    · have fc : face_configs 1 = fun u v => ((-1 : ℝ), v, u) := rfl
      rw [fc]
      simp only [Prod.mk.injEq]
      refine ⟨by field_simp, by field_simp, by field_simp⟩
  · -- +Y face
    have hay0 : (0:ℝ) < |dy| := c3 ▸ hm
    have hdy : dy ≠ 0 := ne_of_gt c4
    have hax : |dx| ≤ |dy| := by
      rw [← c3]
      exact le_trans (le_max_left _ _) (le_max_left _ _)
    have haz : |dz| ≤ |dy| := by
      rw [← c3]
      exact le_max_right _ _
    refine ⟨?_, ?_, 1 / dy, one_div_pos.mpr c4, ?_⟩
    · simp only [abs_div]
      exact div_le_one_of_le₀ hax (abs_nonneg _)
    · simp only [abs_neg, abs_div]
      exact div_le_one_of_le₀ haz (abs_nonneg _)
    · have fc : face_configs 2 = fun u v => (u, (1 : ℝ), -v) := rfl
      rw [fc]
      simp only [Prod.mk.injEq]
      refine ⟨by field_simp, by field_simp, by field_simp⟩
  · -- -Y face
    have hay0 : (0:ℝ) < |dy| := c3 ▸ hm
    have hdy : dy ≠ 0 := abs_pos.mp hay0
    have hdyn : dy < 0 := lt_of_le_of_ne (not_lt.mp c4) hdy
    have hnd : (0:ℝ) < -dy := neg_pos.mpr hdyn
    have hax : |dx| ≤ |dy| := by
      rw [← c3]
      exact le_trans (le_max_left _ _) (le_max_left _ _)
    have haz : |dz| ≤ |dy| := by
      rw [← c3]
      exact le_max_right _ _
    refine ⟨?_, ?_, (-dy)⁻¹, inv_pos.mpr hnd, ?_⟩
    · simp only [abs_div, abs_neg]
      exact div_le_one_of_le₀ hax (abs_nonneg _)
    · simp only [abs_div, abs_neg]
      exact div_le_one_of_le₀ haz (abs_nonneg _)
    · have fc : face_configs 3 = fun u v => (u, (-1 : ℝ), v) := rfl
      rw [fc]
      simp only [Prod.mk.injEq]
      refine ⟨by field_simp, by field_simp, by field_simp⟩
  · -- +Z face
    have hmz : max (max |dx| |dy|) |dz| = |dz| := by
      rcases max_choice (max |dx| |dy|) |dz| with hc | hc
      · exfalso
        rcases max_choice |dx| |dy| with hd | hd
        · exact c1 (hc.trans hd)
        · exact c3 (hc.trans hd)
      · exact hc
    have haz0 : (0:ℝ) < |dz| := hmz ▸ hm
    have hdz : dz ≠ 0 := ne_of_gt c5
    have hax : |dx| ≤ |dz| := by
      rw [← hmz]
      exact le_trans (le_max_left _ _) (le_max_left _ _)
    have hay : |dy| ≤ |dz| := by
      rw [← hmz]
      exact le_trans (le_max_right _ _) (le_max_left _ _)
    refine ⟨?_, ?_, 1 / dz, one_div_pos.mpr c5, ?_⟩
    · simp only [abs_div]
      exact div_le_one_of_le₀ hax (abs_nonneg _)
    · simp only [abs_div]
      exact div_le_one_of_le₀ hay (abs_nonneg _)
    · have fc : face_configs 4 = fun u v => (u, v, (1 : ℝ)) := rfl
      rw [fc]
      simp only [Prod.mk.injEq]
      refine ⟨by field_simp, by field_simp, by field_simp⟩
  · -- -Z face
    have hmz : max (max |dx| |dy|) |dz| = |dz| := by
      rcases max_choice (max |dx| |dy|) |dz| with hc | hc
      · exfalso
        rcases max_choice |dx| |dy| with hd | hd
        · exact c1 (hc.trans hd)
        · exact c3 (hc.trans hd)
      · exact hc
    have haz0 : (0:ℝ) < |dz| := hmz ▸ hm
    have hdz : dz ≠ 0 := abs_pos.mp haz0
    have hdzn : dz < 0 := lt_of_le_of_ne (not_lt.mp c5) hdz
    have hnd : (0:ℝ) < -dz := neg_pos.mpr hdzn
    have hax : |dx| ≤ |dz| := by
      rw [← hmz]
      exact le_trans (le_max_left _ _) (le_max_left _ _)
    have hay : |dy| ≤ |dz| := by
      rw [← hmz]
      exact le_trans (le_max_right _ _) (le_max_left _ _)
    refine ⟨?_, ?_, (-dz)⁻¹, inv_pos.mpr hnd, ?_⟩
    · simp only [abs_div]
      exact div_le_one_of_le₀ hax (abs_nonneg _)
    · simp only [abs_div, abs_neg]
      exact div_le_one_of_le₀ hay (abs_nonneg _)
    · have fc : face_configs 5 = fun u v => (-u, v, (-1 : ℝ)) := rfl
      rw [fc]
      simp only [Prod.mk.injEq]
      refine ⟨by field_simp, by field_simp, by field_simp⟩

/-- Python list indexing `faces[face_idx][py, px]`: an out-of-range index
raises `IndexError`, modelled as `none`. -/
def pixAt (g : List (List Nat)) (r c : Nat) : Option Nat :=
  match g.get? r with
  | some row => row.get? c
  | none => none

/-- The Python per-pixel loop body aborts the whole conversion at the first
raised exception: `optTraverse` threads that abort through a loop. -/
def optTraverse (f : α → Option β) : List α → Option (List β)
  | [] => some []
  | x :: xs =>
    match f x with
    | none => none
    | some b =>
      match optTraverse f xs with
      | none => none
      | some bs => some (b :: bs)

lemma optTraverse_isSome (f : α → Option β) (l : List α)
    (h : ∀ a ∈ l, (f a).isSome = true) : (optTraverse f l).isSome = true := by
  induction l with
  | nil => rfl
  | cons x xs ih =>
    obtain ⟨b, hb⟩ := Option.isSome_iff_exists.mp (h x (List.mem_cons_self _ _))
    obtain ⟨bs, hbs⟩ :=
      Option.isSome_iff_exists.mp (ih fun a ha => h a (List.mem_cons_of_mem _ ha))
    simp [optTraverse, hb, hbs]

/-- One sampled pixel of `cubemap_faces_to_equirectangular` (lines 420-482):
select the face and `(face_u, face_v)` from the direction, map to face pixel
coordinates with `int(...)`, clamp to `[0, face_size-1]`, and look the pixel
up in the chosen face raster. -/
noncomputable def samplePixel (faces : List (List (List Nat))) (face_size : Nat)
    (dx dy dz : ℝ) : Option Nat :=
  let r := selectFaceUV dx dy dz
  let px : ℤ := max 0 (min ((face_size : ℤ) - 1)
    (pyInt ((r.2.1 + 1) / 2 * ((face_size : ℝ) - 1))))
  let py : ℤ := max 0 (min ((face_size : ℤ) - 1)
    (pyInt ((r.2.2 + 1) / 2 * ((face_size : ℝ) - 1))))
  pixAt (faces.getD (r.1 : Nat) []) py.toNat px.toNat

open Real in
/-- `cubemap_faces_to_equirectangular` (src/ktx2_envmap_decode.py lines
349-503) on already-loaded face rasters (each a list of pixel rows): the
*only* validation is `len(faces) != 6`; `face_size` is the width of the
*first* face (`if face_size is None: face_size = w`), regardless of the
other five.  `output_height = output_width // 2`; when `output_height == 1`
the division `y/(output_height-1)` raises `ZeroDivisionError`, which the
surrounding `except` turns into `None`.  Each output pixel maps through the
spherical direction to a face sample; a raised `IndexError` aborts the call
with `None`. -/
noncomputable def facesToEquirect (faces : List (List (List Nat)))
    (output_width : Nat) : Option (List (List Nat)) :=
  let output_height := output_width / 2
  if faces.length ≠ 6 then none
  else if output_height = 1 then none
  else
    let face_size := ((faces.getD 0 []).getD 0 []).length
    optTraverse (fun y =>
      optTraverse (fun x =>
        let v_norm : ℝ := y / ((output_height : ℝ) - 1)
        let phi : ℝ := (1 - v_norm) * π - π / 2
        let u_norm : ℝ := x / ((output_width : ℝ) - 1)
        let theta : ℝ := u_norm * 2 * π - π
        let dx := cos phi * sin theta
        let dy := sin phi
        let dz := cos phi * cos theta
        samplePixel faces face_size dx dy dz) (List.range output_width))
      (List.range output_height)

/-- Witness for C6: the direction `(1, 0, 0)` selects the `+X` face and is
recovered by its basis function. -/
theorem decode_face_inverse_witness :
    (selectFaceUV 1 0 0).1 = specFaceSelect 1 0 0 ∧
    |(selectFaceUV 1 0 0).2.1| ≤ 1 ∧ |(selectFaceUV 1 0 0).2.2| ≤ 1 ∧
    ∃ t : ℝ, 0 < t ∧
      face_configs (selectFaceUV 1 0 0).1 (selectFaceUV 1 0 0).2.1
        (selectFaceUV 1 0 0).2.2 = (t * 1, t * 0, t * 0) :=
  decode_face_inverse 1 0 0 (by norm_num)

/-- A 1×1 face raster. -/
def face1x1 : List (List Nat) := [[0]]

/-- A 2×2 face raster. -/
def face2x2 : List (List Nat) := [[1, 2], [3, 4]]

/-- Six face rasters of mismatched sizes: the second face is 2×2 while the
others are 1×1. -/
def mismatchedFaces : List (List (List Nat)) :=
  [face1x1, face2x2, face1x1, face1x1, face1x1, face1x1]

/-- With `face_size = 1` both clamped pixel coordinates are identically 0,
so the sample succeeds on any nonempty face raster — in particular on every
entry of `mismatchedFaces`, whatever direction (and hence face) the pixel
maps to. -/
lemma samplePixel_mismatched_isSome (dx dy dz : ℝ) :
    (samplePixel mismatchedFaces 1 dx dy dz).isSome = true := by
  rcases hsel : selectFaceUV dx dy dz with ⟨f, u, v⟩
  simp only [samplePixel, hsel]
  have hclamp : ∀ z : ℤ, (max 0 (min (((1 : Nat) : ℤ) - 1) z)).toNat = 0 := by
    intro z
    omega
  rw [hclamp, hclamp]
  fin_cases f <;> rfl

/-- C8 (amended): the only precondition check of
`cubemap_faces_to_equirectangular` is the face *count* — six rasters are
required, and any other count is rejected with `None` before conversion.
Face *sizes* are never compared: the first raster's width is used as the
face size for all six (see the counterexample, where mismatched sizes
convert without any error). -/
theorem faces_count_checked :
    ∀ (faces : List (List (List Nat))) (output_width : Nat),
      faces.length ≠ 6 → facesToEquirect faces output_width = none := by
  intro faces ow h
  simp [facesToEquirect, h]

/-- Witness for C8: five faces are rejected. -/
theorem faces_count_checked_witness :
    facesToEquirect [face1x1, face1x1, face1x1, face1x1, face1x1] 4 = none :=
  faces_count_checked [face1x1, face1x1, face1x1, face1x1, face1x1] 4 (by decide)

/-- Counterexample for C8 as stated: six rasters of *mismatched* sizes
(widths `[1,2,1,1,1,1]`) are not rejected — the conversion runs to
completion and produces an output, silently sampling the oversized face
with the first face's size. -/
theorem faces_size_unchecked_counterexample :
    (mismatchedFaces.map fun fc => ((fc.getD 0 []).length, fc.length)) =
      [(1, 1), (2, 2), (1, 1), (1, 1), (1, 1), (1, 1)] ∧
    (facesToEquirect mismatchedFaces 4).isSome = true := by
  refine ⟨rfl, ?_⟩
  simp only [facesToEquirect]
  rw [if_neg (by decide), if_neg (by decide)]
  have hfs : ((mismatchedFaces.getD 0 []).getD 0 []).length = 1 := rfl
  rw [hfs]
  apply optTraverse_isSome
  intro y hy
  apply optTraverse_isSome
  intro x hx
  exact samplePixel_mismatched_isSome _ _ _
